import Mathlib

/-!
Shallow embedding of `bevy_observer_pattern` (src/src/lib.rs, src/src/impls.rs).

The repository implements an observer pattern between components on entities of a
bevy ECS world:
  - `ObserverList<T, S, O>` (lib.rs:52) is a per-subject-entity registry holding a
    `HashSet<Entity>` of observer entities;
  - `MapEntities for ObserverList` (lib.rs:93-104) rewrites each held identifier
    through an `EntityMap`;
  - `ObserverBuildCommand::write` (lib.rs:117-147) registers an observer entity on
    a list of subject entities and immediately pushes each subject's `give_data()`
    value to the observer;
  - `recieve_subject_event` (lib.rs:199-219) is the per-tick change-propagation
    pass: for each changed subject with an `ObserverList`, it delivers the
    subject's `give_data()` value to each registered observer that resolves in the
    `Query<&mut O>`, collects registered entities that no longer exist into a
    remove list, and afterwards retains only entities not in the remove list.

Modelling choices:
  - `Entity` is `Nat`; component storages are association lists keyed by entity;
    entity liveness is an explicit `alive` list (a bevy entity can be alive while
    lacking any particular component).
  - The `HashSet<Entity>` of observers is a duplicate-free `List Entity`; the
    unspecified hash-set iteration order becomes the list order, and the
    unspecified `Changed<S>` query iteration order becomes the order of the
    `changed` list passed to `runPass`.
  - The trait methods `Subject::give_data` (lib.rs:40) and
    `Observer::receive_data` (lib.rs:34) are function parameters
    `give : S → T` and `receive : O → T → Entity → O` (the `&Res<AssetServer>`
    argument is opaque to the core and carries no state the core reads, so it is
    dropped from `receive`'s arguments).
  - A Rust panic (`unwrap` on a missing value, `world.entity` on a dead entity)
    is modelled as `Option.none` of the whole operation; functions that the Rust
    code cannot panic in are total Lean functions.
  - Deliveries (calls to `receive_data`) are recorded in an explicit log
    `List (Delivery T)` so that "delivered to", "exactly once" and "computed
    once" are statable.
-/

namespace BevyObs

/-- Entity identifiers of the bevy world, modelled as naturals. -/
abbrev Entity := Nat

/-- Lookup in an association-list component storage (first matching key). -/
def lookupC {α : Type} : List (Entity × α) → Entity → Option α
  | [], _ => none
  | (k, v) :: t, e => if k = e then some v else lookupC t e

/-- Insert-or-replace in an association-list component storage. -/
def setComp {α : Type} : List (Entity × α) → Entity → α → List (Entity × α)
  | [], k, v => [(k, v)]
  | p :: t, k, v => if p.1 = k then (k, v) :: t else p :: setComp t k v

/-- Model of `HashSet::insert` on the duplicate-free observer list: a no-op when the
entity is already present, otherwise appended (lib.rs:128). -/
def insertReg (e : Entity) (l : List Entity) : List Entity :=
  if e ∈ l then l else l ++ [e]

/-! ### Remapping (`MapEntities for ObserverList`, lib.rs:93-104)

`EntityMap` is modelled as an association list `List (Entity × Entity)`; bevy's
`EntityMap::get` returns the image when present.  The Rust body iterates the
observer set, inserting `m.get(*receiver).unwrap()` into a fresh `HashSet`; the
`unwrap` panics when the map lacks an entry, which the model renders as `none`.
On completion the Rust function always returns `Ok(())`, so the modelled result
is `some (Except.ok newSet)`; the `Except.error` branch is never produced. -/
/-- Error type mirroring bevy's `MapEntitiesError::EntityNotFound`. -/

inductive MapEntitiesError where
  | EntityNotFound : Entity → MapEntitiesError
  deriving DecidableEq

/-- Bevy `EntityMap::get`, as a partial map over modelled entities. -/
def emGet (m : List (Entity × Entity)) (e : Entity) : Option Entity :=
  lookupC m e

/-- Loop of `map_entities` (lib.rs:97-100): build the new observer set by
inserting each held identifier's image; `none` models the `unwrap` panic on a
missing entry. -/
def mapEntitiesGo (m : List (Entity × Entity)) : List Entity → List Entity → Option (List Entity)
  | [], acc => some acc
  | r :: t, acc =>
    match emGet m r with
    | some e => mapEntitiesGo m t (insertReg e acc)
    | none => none

/-- Model of `ObserverList::map_entities` (lib.rs:96-103).  Returns the rewritten
observer set wrapped in the `Result` the Rust function returns (always
`Ok`), or `none` when the Rust function would panic on `unwrap`. -/
def map_entities (m : List (Entity × Entity)) (observers : List Entity) :
    Option (Except MapEntitiesError (List Entity)) :=
  (mapEntitiesGo m observers []).map (fun s => Except.ok s)

/-! ### World model and the change-propagation pass (`recieve_subject_event`, lib.rs:199-219) -/
/-- One call of `Observer::receive_data` (lib.rs:34): which observer entity
received which data from which subject entity. -/

structure Delivery (T : Type) where
  observer : Entity
  sender : Entity
  data : T
  deriving DecidableEq

/-- The slice of a bevy `World` the observer-pattern core touches: the set of
live entities, the `S` components, the `O` components, and the
`ObserverList<T,S,O>` components (observer sets, duplicate-free). -/
structure World (S O : Type) where
  alive : List Entity
  subjects : List (Entity × S)
  observers : List (Entity × O)
  lists : List (Entity × List Entity)
  deriving DecidableEq

/-- Inner loop of `recieve_subject_event` (lib.rs:207-215): walk the registry,
and for each observer entity resolve it in `Query<&mut O>`:
  - dead entity (`Err(NoSuchEntity)`) — push onto the remove list;
  - alive but without an `O` component (`Err(QueryDoesNotMatch)`) — the Rust
    `_ => ()` arm: skip, neither delivered nor removed;
  - alive with `O` (`Ok`) — `receive_data(data, …, subject)` updates the
    component in place, recorded in the delivery log. -/
def deliverLoop {O T : Type} (receive : O → T → Entity → O) (alive : List Entity)
    (data : T) (subj : Entity) :
    List Entity → List (Entity × O) → List Entity → List (Delivery T) →
      List (Entity × O) × List Entity × List (Delivery T)
  | [], obs, rm, log => (obs, rm, log)
  | o :: rest, obs, rm, log =>
    if o ∈ alive then
      match lookupC obs o with
      | some v =>
          deliverLoop receive alive data subj rest
            (setComp obs o (receive v data subj)) rm (log ++ [⟨o, subj, data⟩])
      | none => deliverLoop receive alive data subj rest obs rm log
    else deliverLoop receive alive data subj rest obs (rm ++ [o]) log

/-- Body of `recieve_subject_event` for one changed subject entity
(lib.rs:204-218): the `Query<(Entity, &S, &mut ObserverList<T,S,O>), Changed<S>>`
yields the entity only when it has both an `S` component and an `ObserverList`;
the subject's `give_data()` value is computed once, delivered along the
registry, and afterwards the registry retains exactly the entities not on the
remove list (`retain(|x| !remove_list.contains(x))`, lib.rs:217). -/
def dispatchOne {S O T : Type} (give : S → T) (receive : O → T → Entity → O)
    (w : World S O) (subj : Entity) : World S O × List (Delivery T) :=
  match lookupC w.subjects subj, lookupC w.lists subj with
  | some c, some r =>
    let data := give c
    let res := deliverLoop receive w.alive data subj r w.observers [] []
    ({ w with observers := res.1,
              lists := setComp w.lists subj (r.filter (fun x => !decide (x ∈ res.2.1))) },
      res.2.2)
  | _, _ => (w, [])

/-- The change-propagation pass of one tick: `recieve_subject_event` iterates
the `Changed<S>` query (iteration order unspecified in Rust; here the order of
`changed`) and runs the per-subject body on each. -/
def runPass {S O T : Type} (give : S → T) (receive : O → T → Entity → O) :
    World S O → List Entity → World S O × List (Delivery T)
  | w, [] => (w, [])
  | w, s :: rest =>
    let p := dispatchOne give receive w s
    let q := runPass give receive p.1 rest
    (q.1, p.2 ++ q.2)

/-- Model of `give_data` from the blanket impl `Subject<T> for T` (lib.rs:43-47): a
component exposes itself. -/
def giveSelf : Nat → Nat := fun c => c

/-- Model of `receive_data` in the value-storing shape of the blanket
`ReceiveData<T> for T` impl (impls.rs:5-9, `*self = data.into()`) and of the
test observer (lib.rs:265-274): the observer state becomes the delivered
data. -/
def receiveSelf : Nat → Nat → Entity → Nat := fun _ d _ => d

/-! ### Link-establishment command (`ObserverBuildCommand::write`, lib.rs:117-147) -/
/-- The data of an `ObserverBuildCommand<T, S, O>` (lib.rs:106-112): the
observer entity and the requested subject entities. -/

structure BuildCmd where
  observer : Entity
  subjects : List Entity
  deriving DecidableEq

/-- One step of the registration loop (lib.rs:118-131): if the subject entity
has no `ObserverList`, insert a fresh one holding just the observer
(`ObserverList::new(vec![self.observer])`); otherwise insert the observer into
the existing set. -/
def addToList {S O : Type} (w : World S O) (src obs : Entity) : World S O :=
  { w with lists := setComp w.lists src (insertReg obs ((lookupC w.lists src).getD [])) }

/-- Registration phase of `ObserverBuildCommand::write` (lib.rs:118-131).
`world.entity(source)` (and `entity_mut`) panic when `source` is not a live
entity, modelled as `none`. -/
def phase1 {S O : Type} (obs : Entity) : List Entity → World S O → Option (World S O)
  | [], w => some w
  | s :: t, w => if s ∈ w.alive then phase1 obs t (addToList w s obs) else none

/-- Model of `Query<(Entity, &S)>::get(source)` (lib.rs:140): `Ok` exactly when the
entity is alive and has an `S` component. -/
def queryS {S O : Type} (w : World S O) (e : Entity) : Option S :=
  if e ∈ w.alive then lookupC w.subjects e else none

/-- Model of `Query<&mut O>::get_mut(self.observer)` (lib.rs:138): `Ok` exactly when the
entity is alive and has an `O` component. -/
def queryO {S O : Type} (w : World S O) (e : Entity) : Option O :=
  if e ∈ w.alive then lookupC w.observers e else none

/-- Immediate-push loop of `ObserverBuildCommand::write` (lib.rs:139-144): for
each requested subject that resolves in `Query<(Entity, &S)>`, compute
`give_data()` and deliver it to the (mutably borrowed) observer component;
subjects that are dead or lack `S` are skipped by the `if let Ok`. -/
def phase2Loop {S O T : Type} (give : S → T) (receive : O → T → Entity → O)
    (w : World S O) (obsEnt : Entity) :
    List Entity → O → List (Delivery T) → O × List (Delivery T)
  | [], v, log => (v, log)
  | s :: t, v, log =>
    match queryS w s with
    | some c =>
        phase2Loop give receive w obsEnt t (receive v (give c) s)
          (log ++ [⟨obsEnt, s, give c⟩])
    | none => phase2Loop give receive w obsEnt t v log

/-- Immediate-push phase of `ObserverBuildCommand::write` (lib.rs:133-146): if
the observer entity resolves in `Query<&mut O>`, run the push loop and store
the final component value; otherwise (dead observer or missing `O`) the
`if let Ok` skips the whole push. -/
def phase2 {S O T : Type} (give : S → T) (receive : O → T → Entity → O)
    (w : World S O) (cmd : BuildCmd) : World S O × List (Delivery T) :=
  match queryO w cmd.observer with
  | none => (w, [])
  | some v =>
    let res := phase2Loop give receive w cmd.observer cmd.subjects v []
    ({ w with observers := setComp w.observers cmd.observer res.1 }, res.2)

/-- Model of `ObserverBuildCommand::write` (lib.rs:117-147): registration then immediate
push.  `none` models the panic of `world.entity(source)` on a dead subject
entity; no other step can panic. -/
def write {S O T : Type} (give : S → T) (receive : O → T → Entity → O)
    (w : World S O) (cmd : BuildCmd) : Option (World S O × List (Delivery T)) :=
  (phase1 cmd.observer cmd.subjects w).map (fun w1 => phase2 give receive w1 cmd)

/-- The sequence of (subject entity, give value) pairs the immediate push
delivers: one per requested subject that is alive and has an `S` component, in
request order. -/
def bootData {S O T : Type} (give : S → T) (w : World S O) (subjects : List Entity) :
    List (Entity × T) :=
  subjects.filterMap (fun s => (queryS w s).map (fun c => (s, give c)))

/-- Folding `receive_data` over a sequence of delivered values, mirroring the
in-place mutation of the observer component across the push loop. -/
def receiveFold {O T : Type} (receive : O → T → Entity → O) (v : O)
    (l : List (Entity × T)) : O :=
  l.foldl (fun acc p => receive acc p.2 p.1) v

/-! ### Text adapter (`ReceiveData<String> for Text`, impls.rs:23-34) -/
/-- Bevy `TextSection`: a value string plus a style (opaque here). -/

structure TextSection (Style : Type) where
  value : String
  style : Style
  deriving DecidableEq

/-- Bevy `Text`: a list of sections plus an alignment (opaque here). -/
structure Text (Style Align : Type) where
  sections : List (TextSection Style)
  alignment : Align
  deriving DecidableEq

/-- Model of `TextSection::default()`: empty string value with the default style. -/
def textSectionDefault {Style : Type} (defStyle : Style) : TextSection Style :=
  { value := "", style := defStyle }

/-- Model of `ReceiveData<String> for Text::receive_data` (impls.rs:24-33): take section
0 if present, else push a default section and take it; then set its `value` to
the delivered string. -/
def textReceiveData {Style Align : Type} (defStyle : Style) (t : Text Style Align)
    (d : String) : Text Style Align :=
  match t.sections with
  | [] => { t with sections := [{ textSectionDefault defStyle with value := d }] }
  | s0 :: rest => { t with sections := { s0 with value := d } :: rest }


/-! ### Theorems -/

@[simp] theorem lookupC_nil {α : Type} (e : Entity) : lookupC ([] : List (Entity × α)) e = none := rfl
theorem lookupC_setComp_self {α : Type} (l : List (Entity × α)) (k : Entity) (v : α) :
    lookupC (setComp l k v) k = some v := by
  induction l with
  | nil => simp [setComp, lookupC]
  | cons p t ih =>
    by_cases h : p.1 = k
    · simp [setComp, h, lookupC]
    · simp [setComp, h, lookupC, ih]

theorem lookupC_setComp_ne {α : Type} (l : List (Entity × α)) (k e : Entity) (v : α)
    (h : e ≠ k) : lookupC (setComp l k v) e = lookupC l e := by
  have hne : k ≠ e := fun hk => h hk.symm
  induction l with
  | nil => simp [setComp, lookupC, hne]
  | cons p t ih =>
    by_cases hp : p.1 = k
    · subst hp
      simp [setComp, lookupC, hne]
    · simp only [setComp, hp, if_false]
      by_cases hpe : p.1 = e
      · simp [lookupC, hpe]
      · simp [lookupC, hpe, ih]

theorem lookupC_setComp_isSome {α : Type} (l : List (Entity × α)) (k e : Entity) (v : α)
    (hk : (lookupC l k).isSome) :
    (lookupC (setComp l k v) e).isSome = (lookupC l e).isSome := by
  by_cases h : e = k
  · subst h
    simp [lookupC_setComp_self, hk]
  · simp [lookupC_setComp_ne l k e v h]

theorem mem_insertReg {x e : Entity} {l : List Entity} :
    x ∈ insertReg e l ↔ x = e ∨ x ∈ l := by
  unfold insertReg
  by_cases h : e ∈ l
  · simp only [h, if_true]
    constructor
    · exact fun hx => Or.inr hx
    · rintro (rfl | hx)
      · exact h
      · exact hx
  · simp [h, List.mem_append, or_comm]

theorem self_mem_insertReg (e : Entity) (l : List Entity) : e ∈ insertReg e l :=
  mem_insertReg.mpr (Or.inl rfl)

theorem insertReg_idem (e : Entity) (l : List Entity) :
    insertReg e (insertReg e l) = insertReg e l := by
  unfold insertReg
  by_cases h : e ∈ l
  · simp [h]
  · simp [h]

theorem nodup_insertReg {l : List Entity} (e : Entity) (h : l.Nodup) :
    (insertReg e l).Nodup := by
  unfold insertReg
  by_cases he : e ∈ l
  · simpa [he]
  · simpa [he, List.nodup_append] using h

theorem count_insertReg_self {l : List Entity} (e : Entity) (h : l.Nodup) :
    (insertReg e l).count e = 1 := by
  unfold insertReg
  by_cases he : e ∈ l
  · simpa [he] using List.count_eq_one_of_mem h he
  · have : l.count e = 0 := List.count_eq_zero.mpr he
    simp [he, this]

theorem mapEntitiesGo_total (m : List (Entity × Entity)) (l : List Entity)
    (hcov : ∀ e ∈ l, (emGet m e).isSome) :
    ∀ acc, ∃ l2, mapEntitiesGo m l acc = some l2 ∧
      ∀ x, x ∈ l2 ↔ (x ∈ acc ∨ ∃ e ∈ l, emGet m e = some x) := by
  induction l with
  | nil => exact fun acc => ⟨acc, rfl, by simp [mapEntitiesGo]⟩
  | cons r t ih =>
    intro acc
    have hr : (emGet m r).isSome := hcov r (by simp)
    obtain ⟨e, he⟩ := Option.isSome_iff_exists.mp hr
    have hcov' : ∀ x ∈ t, (emGet m x).isSome := fun x hx => hcov x (by simp [hx])
    obtain ⟨l2, hgo, hmem⟩ := ih hcov' (insertReg e acc)
    refine ⟨l2, by simp [mapEntitiesGo, he, hgo], fun x => ?_⟩
    rw [hmem x, mem_insertReg]
    constructor
    · rintro ((rfl | hx) | ⟨e2, he2, hge⟩)
      · exact Or.inr ⟨r, by simp, he⟩
      · exact Or.inl hx
      · exact Or.inr ⟨e2, by simp [he2], hge⟩
    · rintro (hx | ⟨e2, he2, hge⟩)
      · exact Or.inl (Or.inr hx)
      · rcases List.mem_cons.mp he2 with rfl | he2t
        · exact Or.inl (Or.inl (by rw [he] at hge; exact (Option.some_inj.mp hge).symm))
        · exact Or.inr ⟨e2, he2t, hge⟩

/-- C3 (code evaluated at the failing input): a registry holding entity `5`
remapped through a table containing only `1 ↦ 2` makes `map_entities` panic
(`unwrap` on `EntityMap::get`'s miss, lib.rs:99), modelled as `none`; no
`MapEntitiesError` value is ever returned to the caller. -/
theorem C3_remap_missing_entry_panics :
    map_entities [(1, 2)] [5] = none := rfl

/-- C5: when the remap table covers every held observer identifier,
`map_entities` succeeds (returns `Ok`), and the resulting observer set is
exactly the image of the old set under the mapping. -/
theorem C5_remap_success (m : List (Entity × Entity)) (l : List Entity)
    (hcov : ∀ e ∈ l, (emGet m e).isSome) :
    ∃ l2, map_entities m l = some (Except.ok l2) ∧
      ∀ x, x ∈ l2 ↔ ∃ e ∈ l, emGet m e = some x := by
  obtain ⟨l2, hgo, hmem⟩ := mapEntitiesGo_total m l hcov []
  exact ⟨l2, by simp [map_entities, hgo], fun x => by simpa using hmem x⟩

/-- C5 witness: the covering remap `{1 ↦ 2, 5 ↦ 9}` applied to the registry
`{1, 5}` succeeds with observer set equal to the image. -/
theorem C5_remap_success_witness :
    (∀ e ∈ [1, 5], (emGet [(1, 2), (5, 9)] e).isSome) ∧
      ∃ l2, map_entities [(1, 2), (5, 9)] [1, 5] = some (Except.ok l2) ∧
        ∀ x, x ∈ l2 ↔ ∃ e ∈ [1, 5], emGet [(1, 2), (5, 9)] e = some x :=
  ⟨by decide, C5_remap_success [(1, 2), (5, 9)] [1, 5] (by decide)⟩

theorem deliverLoop_rm {O T : Type} (receive : O → T → Entity → O) (alive : List Entity)
    (data : T) (subj : Entity) (R : List Entity) :
    ∀ (obs : List (Entity × O)) (rm : List Entity) (log : List (Delivery T)),
      (deliverLoop receive alive data subj R obs rm log).2.1
        = rm ++ R.filter (fun x => !decide (x ∈ alive)) := by
  induction R with
  | nil => intro obs rm log; simp [deliverLoop]
  | cons o rest ih =>
    intro obs rm log
    by_cases ha : o ∈ alive
    · cases hv : lookupC obs o with
      | some v => simp [deliverLoop, ha, hv, ih]
      | none => simp [deliverLoop, ha, hv, ih]
    · simp [deliverLoop, ha, ih]

theorem deliverLoop_keys {O T : Type} (receive : O → T → Entity → O) (alive : List Entity)
    (data : T) (subj : Entity) (R : List Entity) :
    ∀ (obs : List (Entity × O)) (rm : List Entity) (log : List (Delivery T)) (e : Entity),
      (lookupC (deliverLoop receive alive data subj R obs rm log).1 e).isSome
        = (lookupC obs e).isSome := by
  induction R with
  | nil => intro obs rm log e; simp [deliverLoop]
  | cons o rest ih =>
    intro obs rm log e
    by_cases ha : o ∈ alive
    · cases hv : lookupC obs o with
      | some v =>
          simp only [deliverLoop, ha, if_true, hv]
          rw [ih]
          exact lookupC_setComp_isSome obs o e _ (by simp [hv])
      | none => simp [deliverLoop, ha, hv, ih]
    · simp [deliverLoop, ha, ih]

theorem deliverLoop_log {O T : Type} (receive : O → T → Entity → O) (alive : List Entity)
    (data : T) (subj : Entity) (R : List Entity) :
    ∀ (obs : List (Entity × O)) (rm : List Entity) (log : List (Delivery T)),
      (deliverLoop receive alive data subj R obs rm log).2.2
        = log ++ R.filterMap (fun o => if o ∈ alive then
            if (lookupC obs o).isSome then some ⟨o, subj, data⟩ else none else none) := by
  induction R with
  | nil => intro obs rm log; simp [deliverLoop]
  | cons o rest ih =>
    intro obs rm log
    by_cases ha : o ∈ alive
    · cases hv : lookupC obs o with
      | some v =>
          have hkeys : ∀ e, (lookupC (setComp obs o (receive v data subj)) e).isSome
              = (lookupC obs e).isSome :=
            fun e => lookupC_setComp_isSome obs o e _ (by simp [hv])
          simp only [deliverLoop, ha, if_true, hv]
          rw [ih]
          have hfun : (fun x => if x ∈ alive then
                if (lookupC (setComp obs o (receive v data subj)) x).isSome then
                  some (Delivery.mk x subj data) else none else none)
              = (fun x => if x ∈ alive then
                if (lookupC obs x).isSome then some (Delivery.mk x subj data) else none
                else none) := by
            funext x
            rw [hkeys x]
          rw [hfun]
          simp [List.filterMap_cons, ha, hv]
      | none => simp [deliverLoop, ha, hv, ih, List.filterMap_cons]
    · simp [deliverLoop, ha, ih, List.filterMap_cons]

theorem deliverLoop_lookup_of_not_mem {O T : Type} (receive : O → T → Entity → O)
    (alive : List Entity) (data : T) (subj : Entity) (R : List Entity) :
    ∀ (obs : List (Entity × O)) (rm : List Entity) (log : List (Delivery T)) (e : Entity),
      e ∉ R →
      lookupC (deliverLoop receive alive data subj R obs rm log).1 e = lookupC obs e := by
  induction R with
  | nil => intro obs rm log e _; simp [deliverLoop]
  | cons o rest ih =>
    intro obs rm log e he
    have heo : e ≠ o := fun h => he (h ▸ List.mem_cons_self o rest)
    have her : e ∉ rest := fun h => he (List.mem_cons_of_mem o h)
    by_cases ha : o ∈ alive
    · cases hv : lookupC obs o with
      | some v =>
          simp only [deliverLoop, ha, if_true, hv]
          rw [ih _ _ _ _ her, lookupC_setComp_ne obs o e _ heo]
      | none => simp [deliverLoop, ha, hv, ih _ _ _ _ her]
    · simp [deliverLoop, ha, ih _ _ _ _ her]

theorem deliverLoop_lookup_of_mem {O T : Type} (receive : O → T → Entity → O)
    (alive : List Entity) (data : T) (subj : Entity) (R : List Entity) :
    ∀ (obs : List (Entity × O)) (rm : List Entity) (log : List (Delivery T)) (e : Entity)
      (v : O), R.Nodup → e ∈ R → e ∈ alive → lookupC obs e = some v →
      lookupC (deliverLoop receive alive data subj R obs rm log).1 e
        = some (receive v data subj) := by
  induction R with
  | nil => intro obs rm log e v _ he; exact absurd he (List.not_mem_nil e)
  | cons o rest ih =>
    intro obs rm log e v hnd he ha hv
    rcases List.mem_cons.mp he with rfl | her
    · simp only [deliverLoop, ha, if_true, hv]
      have hrest : e ∉ rest := (List.nodup_cons.mp hnd).1
      rw [deliverLoop_lookup_of_not_mem receive alive data subj rest _ _ _ _ hrest,
        lookupC_setComp_self]
    · have hne : e ≠ o := by
        intro h
        exact (List.nodup_cons.mp hnd).1 (h ▸ her)
      by_cases hao : o ∈ alive
      · cases hvo : lookupC obs o with
        | some vo =>
            simp only [deliverLoop, hao, if_true, hvo]
            exact ih _ _ _ _ _ (List.nodup_cons.mp hnd).2 her ha
              (by rw [lookupC_setComp_ne obs o e _ hne]; exact hv)
        | none =>
            simp only [deliverLoop, hao, if_true, hvo]
            exact ih _ _ _ _ _ (List.nodup_cons.mp hnd).2 her ha hv
      · simp only [deliverLoop, hao, if_false]
        exact ih _ _ _ _ _ (List.nodup_cons.mp hnd).2 her ha hv

theorem dispatchOne_alive {S O T : Type} (give : S → T) (receive : O → T → Entity → O)
    (w : World S O) (subj : Entity) :
    (dispatchOne give receive w subj).1.alive = w.alive := by
  unfold dispatchOne
  cases lookupC w.subjects subj <;> cases lookupC w.lists subj <;> simp

theorem dispatchOne_subjects {S O T : Type} (give : S → T) (receive : O → T → Entity → O)
    (w : World S O) (subj : Entity) :
    (dispatchOne give receive w subj).1.subjects = w.subjects := by
  unfold dispatchOne
  cases lookupC w.subjects subj <;> cases lookupC w.lists subj <;> simp

theorem dispatchOne_keys {S O T : Type} (give : S → T) (receive : O → T → Entity → O)
    (w : World S O) (subj e : Entity) :
    (lookupC (dispatchOne give receive w subj).1.observers e).isSome
      = (lookupC w.observers e).isSome := by
  unfold dispatchOne
  cases lookupC w.subjects subj <;> cases lookupC w.lists subj <;>
    simp [deliverLoop_keys]

theorem dispatchOne_lists_ne {S O T : Type} (give : S → T) (receive : O → T → Entity → O)
    (w : World S O) (subj k : Entity) (hk : k ≠ subj) :
    lookupC (dispatchOne give receive w subj).1.lists k = lookupC w.lists k := by
  unfold dispatchOne
  cases lookupC w.subjects subj <;> cases lookupC w.lists subj <;>
    simp [lookupC_setComp_ne _ _ _ _ hk]

theorem dispatchOne_lists_self {S O T : Type} (give : S → T) (receive : O → T → Entity → O)
    (w : World S O) (subj : Entity) (c : S) (r : List Entity)
    (hc : lookupC w.subjects subj = some c) (hr : lookupC w.lists subj = some r) :
    lookupC (dispatchOne give receive w subj).1.lists subj
      = some (r.filter (fun x => decide (x ∈ w.alive))) := by
  simp only [dispatchOne, hc, hr]
  rw [lookupC_setComp_self]
  congr 1
  rw [deliverLoop_rm]
  refine List.filter_congr ?_
  intro x hx
  by_cases hxa : x ∈ w.alive <;> simp [List.mem_filter, hx, hxa]

theorem dispatchOne_eq_self {S O T : Type} (give : S → T) (receive : O → T → Entity → O)
    (w : World S O) (subj : Entity)
    (h : lookupC w.subjects subj = none ∨ lookupC w.lists subj = none) :
    dispatchOne give receive w subj = (w, []) := by
  unfold dispatchOne
  cases hc : lookupC w.subjects subj <;> cases hr : lookupC w.lists subj <;> simp_all

theorem dispatchOne_lists_sub {S O T : Type} (give : S → T) (receive : O → T → Entity → O)
    (w : World S O) (subj k : Entity) (R1 : List Entity)
    (h : lookupC (dispatchOne give receive w subj).1.lists k = some R1) :
    ∃ R0, lookupC w.lists k = some R0 ∧ ∀ x ∈ R1, x ∈ R0 := by
  by_cases hk : k = subj
  · subst hk
    cases hc : lookupC w.subjects k with
    | none =>
        rw [dispatchOne_eq_self give receive w k (Or.inl hc)] at h
        exact ⟨R1, h, fun x hx => hx⟩
    | some c =>
      cases hr : lookupC w.lists k with
      | none =>
          rw [dispatchOne_eq_self give receive w k (Or.inr hr)] at h
          have h2 : lookupC w.lists k = some R1 := h
          rw [hr] at h2
          exact absurd h2 (by simp)
      | some r =>
          refine ⟨r, rfl, fun x hx => ?_⟩
          rw [dispatchOne_lists_self give receive w k c r hc hr] at h
          have := Option.some_inj.mp h
          subst this
          exact (List.mem_filter.mp hx).1
  · exact ⟨R1, by rw [← dispatchOne_lists_ne give receive w subj k hk]; exact h,
      fun x hx => hx⟩

theorem dispatchOne_obs_of_not_mem {S O T : Type} (give : S → T)
    (receive : O → T → Entity → O) (w : World S O) (subj e : Entity)
    (h : ∀ r0, lookupC w.lists subj = some r0 → e ∉ r0) :
    lookupC (dispatchOne give receive w subj).1.observers e = lookupC w.observers e := by
  cases hc : lookupC w.subjects subj with
  | none => unfold dispatchOne; cases lookupC w.lists subj <;> simp [hc]
  | some c =>
    cases hr : lookupC w.lists subj with
    | none => simp [dispatchOne, hc, hr]
    | some r =>
        simp only [dispatchOne, hc, hr]
        exact deliverLoop_lookup_of_not_mem receive w.alive (give c) subj r _ _ _ e (h r hr)

theorem dispatchOne_obs_deliver {S O T : Type} (give : S → T)
    (receive : O → T → Entity → O) (w : World S O) (subj : Entity) (c : S)
    (r : List Entity) (e : Entity) (v : O)
    (hc : lookupC w.subjects subj = some c) (hr : lookupC w.lists subj = some r)
    (hnd : r.Nodup) (he : e ∈ r) (ha : e ∈ w.alive)
    (hv : lookupC w.observers e = some v) :
    lookupC (dispatchOne give receive w subj).1.observers e
      = some (receive v (give c) subj) := by
  simp only [dispatchOne, hc, hr]
  exact deliverLoop_lookup_of_mem receive w.alive (give c) subj r _ _ _ e v hnd he ha hv

theorem dispatchOne_log {S O T : Type} (give : S → T) (receive : O → T → Entity → O)
    (w : World S O) (subj : Entity) (c : S) (r : List Entity)
    (hc : lookupC w.subjects subj = some c) (hr : lookupC w.lists subj = some r) :
    (dispatchOne give receive w subj).2
      = r.filterMap (fun o => if o ∈ w.alive then
          if (lookupC w.observers o).isSome then some ⟨o, subj, give c⟩ else none
          else none) := by
  simp only [dispatchOne, hc, hr]
  rw [deliverLoop_log]
  simp

theorem dispatchOne_senders {S O T : Type} (give : S → T) (receive : O → T → Entity → O)
    (w : World S O) (subj : Entity) :
    ∀ d ∈ (dispatchOne give receive w subj).2, d.sender = subj := by
  intro d hd
  cases hc : lookupC w.subjects subj with
  | none =>
      unfold dispatchOne at hd
      cases lookupC w.lists subj <;> simp [hc] at hd
  | some c =>
    cases hr : lookupC w.lists subj with
    | none => simp [dispatchOne, hc, hr] at hd
    | some r =>
        rw [dispatchOne_log give receive w subj c r hc hr] at hd
        obtain ⟨o, _, hfo⟩ := List.mem_filterMap.mp hd
        by_cases hoa : o ∈ w.alive
        · by_cases hos : (lookupC w.observers o).isSome
          · simp [hoa, hos] at hfo
            rw [← hfo]
          · simp [hoa, hos] at hfo
        · simp [hoa] at hfo

theorem dispatchOne_data {S O T : Type} (give : S → T) (receive : O → T → Entity → O)
    (w : World S O) (subj : Entity) (c : S)
    (hc : lookupC w.subjects subj = some c) :
    ∀ d ∈ (dispatchOne give receive w subj).2, d.data = give c := by
  intro d hd
  cases hr : lookupC w.lists subj with
  | none => simp [dispatchOne, hc, hr] at hd
  | some r =>
      rw [dispatchOne_log give receive w subj c r hc hr] at hd
      obtain ⟨o, _, hfo⟩ := List.mem_filterMap.mp hd
      by_cases hoa : o ∈ w.alive
      · by_cases hos : (lookupC w.observers o).isSome
        · simp [hoa, hos] at hfo
          rw [← hfo]
        · simp [hoa, hos] at hfo
      · simp [hoa] at hfo

theorem runPass_alive {S O T : Type} (give : S → T) (receive : O → T → Entity → O)
    (changed : List Entity) :
    ∀ w : World S O, (runPass give receive w changed).1.alive = w.alive := by
  induction changed with
  | nil => intro w; rfl
  | cons a rest ih =>
    intro w
    show (runPass give receive (dispatchOne give receive w a).1 rest).1.alive = w.alive
    rw [ih, dispatchOne_alive]

theorem runPass_subjects {S O T : Type} (give : S → T) (receive : O → T → Entity → O)
    (changed : List Entity) :
    ∀ w : World S O, (runPass give receive w changed).1.subjects = w.subjects := by
  induction changed with
  | nil => intro w; rfl
  | cons a rest ih =>
    intro w
    show (runPass give receive (dispatchOne give receive w a).1 rest).1.subjects
      = w.subjects
    rw [ih, dispatchOne_subjects]

theorem runPass_keys {S O T : Type} (give : S → T) (receive : O → T → Entity → O)
    (changed : List Entity) :
    ∀ (w : World S O) (e : Entity),
      (lookupC (runPass give receive w changed).1.observers e).isSome
        = (lookupC w.observers e).isSome := by
  induction changed with
  | nil => intro w e; rfl
  | cons a rest ih =>
    intro w e
    show (lookupC (runPass give receive (dispatchOne give receive w a).1 rest).1.observers
        e).isSome = (lookupC w.observers e).isSome
    rw [ih, dispatchOne_keys]

theorem runPass_lists_of_not_mem {S O T : Type} (give : S → T)
    (receive : O → T → Entity → O) (changed : List Entity) :
    ∀ (w : World S O) (s : Entity), s ∉ changed →
      lookupC (runPass give receive w changed).1.lists s = lookupC w.lists s := by
  induction changed with
  | nil => intro w s _; rfl
  | cons a rest ih =>
    intro w s hs
    show lookupC (runPass give receive (dispatchOne give receive w a).1 rest).1.lists s
      = lookupC w.lists s
    rw [ih _ s (fun h => hs (List.mem_cons_of_mem a h)),
      dispatchOne_lists_ne give receive w a s (fun h => hs (h ▸ List.mem_cons_self a rest))]

theorem runPass_obs_skip {S O T : Type} (give : S → T) (receive : O → T → Entity → O)
    (changed : List Entity) :
    ∀ (w : World S O) (e : Entity),
      (∀ s2 ∈ changed, ∀ r2, lookupC w.lists s2 = some r2 → e ∉ r2) →
      lookupC (runPass give receive w changed).1.observers e = lookupC w.observers e := by
  induction changed with
  | nil => intro w e _; rfl
  | cons a rest ih =>
    intro w e h
    show lookupC (runPass give receive (dispatchOne give receive w a).1 rest).1.observers e
      = lookupC w.observers e
    rw [ih _ e ?_, dispatchOne_obs_of_not_mem give receive w a e
      (fun r0 hr0 => h a (List.mem_cons_self a rest) r0 hr0)]
    intro s2 hs2 r2 hr2
    obtain ⟨r0, hr0, hsub⟩ := dispatchOne_lists_sub give receive w a s2 r2 hr2
    intro hmem
    exact h s2 (List.mem_cons_of_mem a hs2) r0 hr0 (hsub e hmem)

theorem runPass_delivers {S O T : Type} (give : S → T) (receive : O → T → Entity → O)
    (changed : List Entity) :
    ∀ (w : World S O) (s : Entity) (c : S) (r : List Entity) (o : Entity),
      changed.Nodup → s ∈ changed →
      lookupC w.subjects s = some c → lookupC w.lists s = some r →
      o ∈ r → o ∈ w.alive → (lookupC w.observers o).isSome →
      Delivery.mk o s (give c) ∈ (runPass give receive w changed).2 := by
  induction changed with
  | nil => intro w s c r o _ hs; exact absurd hs (List.not_mem_nil s)
  | cons a rest ih =>
    intro w s c r o hnd hs hc hr ho ha hO
    show Delivery.mk o s (give c) ∈
      (dispatchOne give receive w a).2
        ++ (runPass give receive (dispatchOne give receive w a).1 rest).2
    rcases List.mem_cons.mp hs with rfl | hsr
    · refine List.mem_append.mpr (Or.inl ?_)
      rw [dispatchOne_log give receive w s c r hc hr]
      exact List.mem_filterMap.mpr ⟨o, ho, by simp [ha, hO]⟩
    · have hne : s ≠ a := by
        intro h
        exact (List.nodup_cons.mp hnd).1 (h ▸ hsr)
      refine List.mem_append.mpr (Or.inr ?_)
      refine ih (dispatchOne give receive w a).1 s c r o (List.nodup_cons.mp hnd).2 hsr
        ?_ ?_ ho ?_ ?_
      · rw [dispatchOne_subjects]; exact hc
      · rw [dispatchOne_lists_ne give receive w a s hne]; exact hr
      · rw [dispatchOne_alive]; exact ha
      · rw [dispatchOne_keys]; exact hO

theorem runPass_obs_exact {S O T : Type} (give : S → T) (receive : O → T → Entity → O)
    (changed : List Entity) :
    ∀ (w : World S O) (s : Entity) (c : S) (r : List Entity) (o : Entity) (v : O),
      changed.Nodup → s ∈ changed →
      lookupC w.subjects s = some c → lookupC w.lists s = some r →
      r.Nodup → o ∈ r → o ∈ w.alive → lookupC w.observers o = some v →
      (∀ s2 ∈ changed, s2 ≠ s → ∀ r2, lookupC w.lists s2 = some r2 → o ∉ r2) →
      lookupC (runPass give receive w changed).1.observers o
        = some (receive v (give c) s) := by
  induction changed with
  | nil => intro w s c r o v _ hs; exact absurd hs (List.not_mem_nil s)
  | cons a rest ih =>
    intro w s c r o v hnd hs hc hr hrnd ho ha hv hexcl
    show lookupC (runPass give receive (dispatchOne give receive w a).1 rest).1.observers o
      = some (receive v (give c) s)
    rcases List.mem_cons.mp hs with rfl | hsr
    · rw [runPass_obs_skip give receive rest _ o ?_]
      · exact dispatchOne_obs_deliver give receive w s c r o v hc hr hrnd ho ha hv
      · intro s2 hs2 r2 hr2
        obtain ⟨r0, hr0, hsub⟩ := dispatchOne_lists_sub give receive w s s2 r2 hr2
        have hs2ne : s2 ≠ s := by
          intro h
          exact (List.nodup_cons.mp hnd).1 (h ▸ hs2)
        intro hmem
        exact hexcl s2 (List.mem_cons_of_mem s hs2) hs2ne r0 hr0 (hsub o hmem)
    · have hne : s ≠ a := by
        intro h
        exact (List.nodup_cons.mp hnd).1 (h ▸ hsr)
      have hobs : lookupC (dispatchOne give receive w a).1.observers o
          = lookupC w.observers o :=
        dispatchOne_obs_of_not_mem give receive w a o
          (fun r0 hr0 => hexcl a (List.mem_cons_self a rest) (fun h => hne h.symm) r0 hr0)
      refine ih (dispatchOne give receive w a).1 s c r o v (List.nodup_cons.mp hnd).2 hsr
        ?_ ?_ hrnd ho ?_ ?_ ?_
      · rw [dispatchOne_subjects]; exact hc
      · rw [dispatchOne_lists_ne give receive w a s hne]; exact hr
      · rw [dispatchOne_alive]; exact ha
      · rw [hobs]; exact hv
      · intro s2 hs2 hs2ne r2 hr2
        obtain ⟨r0, hr0, hsub⟩ := dispatchOne_lists_sub give receive w a s2 r2 hr2
        intro hmem
        exact hexcl s2 (List.mem_cons_of_mem a hs2) hs2ne r0 hr0 (hsub o hmem)

theorem runPass_lists_self {S O T : Type} (give : S → T) (receive : O → T → Entity → O)
    (changed : List Entity) :
    ∀ (w : World S O) (s : Entity) (c : S) (r : List Entity),
      changed.Nodup → s ∈ changed →
      lookupC w.subjects s = some c → lookupC w.lists s = some r →
      lookupC (runPass give receive w changed).1.lists s
        = some (r.filter (fun x => decide (x ∈ w.alive))) := by
  induction changed with
  | nil => intro w s c r _ hs; exact absurd hs (List.not_mem_nil s)
  | cons a rest ih =>
    intro w s c r hnd hs hc hr
    show lookupC (runPass give receive (dispatchOne give receive w a).1 rest).1.lists s
      = some (r.filter (fun x => decide (x ∈ w.alive)))
    rcases List.mem_cons.mp hs with rfl | hsr
    · rw [runPass_lists_of_not_mem give receive rest _ s (List.nodup_cons.mp hnd).1]
      exact dispatchOne_lists_self give receive w s c r hc hr
    · have hne : s ≠ a := by
        intro h
        exact (List.nodup_cons.mp hnd).1 (h ▸ hsr)
      have halive : (dispatchOne give receive w a).1.alive = w.alive :=
        dispatchOne_alive give receive w a
      rw [← halive]
      refine ih (dispatchOne give receive w a).1 s c r (List.nodup_cons.mp hnd).2 hsr ?_ ?_
      · rw [dispatchOne_subjects]; exact hc
      · rw [dispatchOne_lists_ne give receive w a s hne]; exact hr

theorem runPass_senders {S O T : Type} (give : S → T) (receive : O → T → Entity → O)
    (changed : List Entity) :
    ∀ (w : World S O) (d : Delivery T),
      d ∈ (runPass give receive w changed).2 → d.sender ∈ changed := by
  induction changed with
  | nil => intro w d hd; exact absurd hd (List.not_mem_nil d)
  | cons a rest ih =>
    intro w d hd
    have hd2 : d ∈ (dispatchOne give receive w a).2
        ++ (runPass give receive (dispatchOne give receive w a).1 rest).2 := hd
    rcases List.mem_append.mp hd2 with h1 | h2
    · rw [dispatchOne_senders give receive w a d h1]
      exact List.mem_cons_self a rest
    · exact List.mem_cons_of_mem a (ih _ d h2)

theorem runPass_data {S O T : Type} (give : S → T) (receive : O → T → Entity → O)
    (changed : List Entity) :
    ∀ (w : World S O) (s : Entity) (c : S),
      changed.Nodup → lookupC w.subjects s = some c →
      ∀ d ∈ (runPass give receive w changed).2, d.sender = s → d.data = give c := by
  induction changed with
  | nil => intro w s c _ _ d hd; exact absurd hd (List.not_mem_nil d)
  | cons a rest ih =>
    intro w s c hnd hc d hd hds
    have hd2 : d ∈ (dispatchOne give receive w a).2
        ++ (runPass give receive (dispatchOne give receive w a).1 rest).2 := hd
    rcases List.mem_append.mp hd2 with h1 | h2
    · have hsa : d.sender = a := dispatchOne_senders give receive w a d h1
      rw [hds] at hsa
      exact dispatchOne_data give receive w a c (hsa ▸ hc) d h1
    · refine ih _ s c (List.nodup_cons.mp hnd).2 ?_ d h2 hds
      rw [dispatchOne_subjects]; exact hc

theorem filter_observer_filterMap_zero {T : Type} (alive : List Entity) (P : Entity → Bool)
    (subj : Entity) (data : T) (o : Entity) :
    ∀ r : List Entity, o ∉ r →
      ((r.filterMap (fun x => if x ∈ alive then if P x then some (Delivery.mk x subj data)
          else none else none)).filter (fun d => decide (d.observer = o))).length = 0 := by
  intro r
  induction r with
  | nil => intro _; rfl
  | cons x t ih =>
    intro ho
    have hxo : x ≠ o := fun h => ho (h ▸ List.mem_cons_self x t)
    have hot : o ∉ t := fun h => ho (List.mem_cons_of_mem x h)
    by_cases hxa : x ∈ alive
    · by_cases hP : P x
      · simp only [List.filterMap_cons, hxa, if_true, hP, List.filter_cons]
        simp [hxo, ih hot]
      · simp [List.filterMap_cons, hxa, hP, ih hot]
    · simp [List.filterMap_cons, hxa, ih hot]

theorem filter_observer_filterMap_one {T : Type} (alive : List Entity) (P : Entity → Bool)
    (subj : Entity) (data : T) (o : Entity) :
    ∀ r : List Entity, r.Nodup → o ∈ r → o ∈ alive → P o = true →
      ((r.filterMap (fun x => if x ∈ alive then if P x then some (Delivery.mk x subj data)
          else none else none)).filter (fun d => decide (d.observer = o))).length = 1 := by
  intro r
  induction r with
  | nil => intro _ ho; exact absurd ho (List.not_mem_nil o)
  | cons x t ih =>
    intro hnd ho ha hP
    rcases List.mem_cons.mp ho with rfl | hot
    · simp only [List.filterMap_cons, ha, if_true, hP, List.filter_cons]
      simp [filter_observer_filterMap_zero alive P subj data o t (List.nodup_cons.mp hnd).1]
    · have hxo : x ≠ o := by
        intro h
        exact (List.nodup_cons.mp hnd).1 (h ▸ hot)
      by_cases hxa : x ∈ alive
      · by_cases hPx : P x
        · simp only [List.filterMap_cons, hxa, if_true, hPx, List.filter_cons]
          simp [hxo, ih (List.nodup_cons.mp hnd).2 hot ha hP]
        · simp [List.filterMap_cons, hxa, hPx, ih (List.nodup_cons.mp hnd).2 hot ha hP]
      · simp [List.filterMap_cons, hxa, ih (List.nodup_cons.mp hnd).2 hot ha hP]

theorem dispatchOne_count {S O T : Type} (give : S → T) (receive : O → T → Entity → O)
    (w : World S O) (subj : Entity) (c : S) (r : List Entity) (o : Entity)
    (hc : lookupC w.subjects subj = some c) (hr : lookupC w.lists subj = some r)
    (hnd : r.Nodup) (ho : o ∈ r) (ha : o ∈ w.alive)
    (hO : (lookupC w.observers o).isSome) :
    (((dispatchOne give receive w subj).2).filter
        (fun d => decide (d.observer = o))).length = 1 := by
  rw [dispatchOne_log give receive w subj c r hc hr]
  exact filter_observer_filterMap_one w.alive (fun x => (lookupC w.observers x).isSome)
    subj (give c) o r hnd ho ha hO

/-- C1 counterexample: two changed subjects (entities 1 and 2, values 10 and
20) share one live observer (entity 7, with an `O` component).  All premises
of the claim hold for subject 1, yet after the pass observer 7's state is not
subject 1's new `give()` value: the delivery from subject 2 overwrote it.  So
the claim that after the pass *each* such observer's state reflects *that*
subject's new `give()` value is false as stated. -/
theorem C1_counterexample :
    ((1 : Entity) ∈ [1, 2] ∧ ([1, 2] : List Entity).Nodup ∧
      lookupC (World.mk [1, 2, 7] [(1, 10), (2, 20)] [(7, 0)]
        [(1, [7]), (2, [7])]).subjects 1 = some 10 ∧
      lookupC (World.mk [1, 2, 7] [(1, 10), (2, 20)] [(7, 0)]
        [(1, [7]), (2, [7])]).lists 1 = some [7] ∧
      (7 : Entity) ∈ (World.mk [1, 2, 7] [(1, 10), (2, 20)] [(7, 0)]
        [(1, [7]), (2, [7])] : World Nat Nat).alive ∧
      lookupC (World.mk [1, 2, 7] [(1, 10), (2, 20)] [(7, 0)]
        [(1, [7]), (2, [7])]).observers 7 = some 0) ∧
    ¬ lookupC (runPass giveSelf receiveSelf
        (World.mk [1, 2, 7] [(1, 10), (2, 20)] [(7, 0)] [(1, [7]), (2, [7])])
        [1, 2]).1.observers 7 = some (receiveSelf 0 (giveSelf 10) 1) := by
  decide

/-- C1 (amended): for every subject entity whose `S` component changed and
which holds an `ObserverList`, the pass computes the subject's `give_data()`
value once (every delivery sent by that subject carries that one value) and
delivers it to every registered observer entity that currently has a live `O`
component; and every such observer that is not also registered to another
changed subject ends the pass with its state equal to `receive_data` applied
to the new `give()` value (an observer registered to several changed subjects
ends with the last-applied value, per the spec's own ordering caveat). -/
theorem C1_change_propagation {S O T : Type} (give : S → T)
    (receive : O → T → Entity → O) (w : World S O) (changed : List Entity)
    (s : Entity) (c : S) (r : List Entity)
    (hnd : changed.Nodup) (hs : s ∈ changed)
    (hc : lookupC w.subjects s = some c) (hr : lookupC w.lists s = some r)
    (hrnd : r.Nodup) :
    (∀ o, o ∈ r → o ∈ w.alive → (lookupC w.observers o).isSome →
        Delivery.mk o s (give c) ∈ (runPass give receive w changed).2) ∧
    (∀ d ∈ (runPass give receive w changed).2, d.sender = s → d.data = give c) ∧
    (∀ o v, o ∈ r → o ∈ w.alive → lookupC w.observers o = some v →
        (∀ s2 ∈ changed, s2 ≠ s → ∀ r2, lookupC w.lists s2 = some r2 → o ∉ r2) →
        lookupC (runPass give receive w changed).1.observers o
          = some (receive v (give c) s)) := by
  refine ⟨fun o ho ha hO =>
      runPass_delivers give receive changed w s c r o hnd hs hc hr ho ha hO,
    fun d hd hds => runPass_data give receive changed w s c hnd hc d hd hds,
    fun o v ho ha hv hexcl =>
      runPass_obs_exact give receive changed w s c r o v hnd hs hc hr hrnd ho ha hv hexcl⟩

/-- C1 witness: one changed subject (entity 1, value 10) with one live
observer (entity 7): the delivery is logged and observer 7 ends with state
`receive 0 (give 10) 1 = 10`. -/
theorem C1_change_propagation_witness :
    (([1] : List Entity).Nodup ∧ (1 : Entity) ∈ [1] ∧
      lookupC (World.mk [1, 7] [(1, 10)] [(7, 0)] [(1, [7])]).subjects 1 = some 10 ∧
      lookupC (World.mk [1, 7] [(1, 10)] [(7, 0)] [(1, [7])]).lists 1 = some [7] ∧
      ([7] : List Entity).Nodup) ∧
    ((∀ o, o ∈ [7] → o ∈ (World.mk [1, 7] [(1, 10)] [(7, 0)]
          [(1, [7])] : World Nat Nat).alive →
        (lookupC (World.mk [1, 7] [(1, 10)] [(7, 0)] [(1, [7])]).observers o).isSome →
        Delivery.mk o 1 (giveSelf 10) ∈ (runPass giveSelf receiveSelf
          (World.mk [1, 7] [(1, 10)] [(7, 0)] [(1, [7])]) [1]).2) ∧
      (∀ d ∈ (runPass giveSelf receiveSelf
          (World.mk [1, 7] [(1, 10)] [(7, 0)] [(1, [7])]) [1]).2,
        d.sender = 1 → d.data = giveSelf 10) ∧
      (∀ o v, o ∈ [7] → o ∈ (World.mk [1, 7] [(1, 10)] [(7, 0)]
            [(1, [7])] : World Nat Nat).alive →
        lookupC (World.mk [1, 7] [(1, 10)] [(7, 0)] [(1, [7])]).observers o = some v →
        (∀ s2 ∈ [1], s2 ≠ 1 →
          ∀ r2, lookupC (World.mk [1, 7] [(1, 10)] [(7, 0)] [(1, [7])]).lists s2
            = some r2 → o ∉ r2) →
        lookupC (runPass giveSelf receiveSelf
            (World.mk [1, 7] [(1, 10)] [(7, 0)] [(1, [7])]) [1]).1.observers o
          = some (receiveSelf v (giveSelf 10) 1))) :=
  ⟨⟨by decide, by decide, by decide, by decide, by decide⟩,
    C1_change_propagation giveSelf receiveSelf
      (World.mk [1, 7] [(1, 10)] [(7, 0)] [(1, [7])]) [1] 1 10 [7]
      (by decide) (by decide) (by decide) (by decide) (by decide)⟩

/-- C4 counterexample: entity 3 is alive but has no `O` component, and is
registered on changed subject 1.  The claim says every registered observer
without a live `O` component is removed from the registry by the pass, but the
code (lib.rs:212-213) only marks entities whose `Query::get_mut` fails with
`NoSuchEntity`; `QueryDoesNotMatch` falls into the `_ => ()` arm, so entity 3
is still registered after the pass. -/
theorem C4_counterexample :
    ((1 : Entity) ∈ [1] ∧
      lookupC (World.mk [1, 3] [(1, 10)] ([] : List (Entity × Nat))
        [(1, [3])]).subjects 1 = some 10 ∧
      lookupC (World.mk [1, 3] [(1, 10)] ([] : List (Entity × Nat))
        [(1, [3])]).lists 1 = some [3] ∧
      (3 : Entity) ∈ (World.mk [1, 3] [(1, 10)] ([] : List (Entity × Nat))
        [(1, [3])] : World Nat Nat).alive ∧
      lookupC (World.mk [1, 3] [(1, 10)] ([] : List (Entity × Nat))
        [(1, [3])]).observers 3 = none) ∧
    lookupC (runPass giveSelf receiveSelf
        (World.mk [1, 3] [(1, 10)] ([] : List (Entity × Nat)) [(1, [3])])
        [1]).1.lists 1 = some [3] := by
  decide

/-- C4 (amended): during the change-propagation pass, for each changed subject
the registry entries whose entity no longer exists (`NoSuchEntity`) are marked
for removal, and after the iteration the registry is replaced in one batch by
the original registry filtered to the still-existing entities — observers that
are alive but lack a live `O` component are skipped and remain registered;
deliveries are made against the original (pre-removal) registry. -/
theorem C4_dispatch_pruning {S O T : Type} (give : S → T)
    (receive : O → T → Entity → O) (w : World S O) (changed : List Entity)
    (s : Entity) (c : S) (r : List Entity)
    (hnd : changed.Nodup) (hs : s ∈ changed)
    (hc : lookupC w.subjects s = some c) (hr : lookupC w.lists s = some r) :
    lookupC (runPass give receive w changed).1.lists s
        = some (r.filter (fun x => decide (x ∈ w.alive))) ∧
    (∀ o, o ∈ r → o ∈ w.alive → (lookupC w.observers o).isSome →
        Delivery.mk o s (give c) ∈ (runPass give receive w changed).2) :=
  ⟨runPass_lists_self give receive changed w s c r hnd hs hc hr,
    fun o ho ha hO => runPass_delivers give receive changed w s c r o hnd hs hc hr ho ha hO⟩

/-- C4 witness: registry `[7, 9]` on changed subject 1, where 7 is alive with
`O` and 9 no longer exists: after the pass the registry is the batch-filtered
`[7]`, and the delivery to 7 is logged. -/
theorem C4_dispatch_pruning_witness :
    (([1] : List Entity).Nodup ∧ (1 : Entity) ∈ [1] ∧
      lookupC (World.mk [1, 7] [(1, 10)] [(7, 0)] [(1, [7, 9])]).subjects 1 = some 10 ∧
      lookupC (World.mk [1, 7] [(1, 10)] [(7, 0)] [(1, [7, 9])]).lists 1
        = some [7, 9]) ∧
    (lookupC (runPass giveSelf receiveSelf
        (World.mk [1, 7] [(1, 10)] [(7, 0)] [(1, [7, 9])]) [1]).1.lists 1
      = some ([7, 9].filter (fun x => decide (x ∈ (World.mk [1, 7] [(1, 10)] [(7, 0)]
          [(1, [7, 9])] : World Nat Nat).alive))) ∧
     (∀ o, o ∈ [7, 9] → o ∈ (World.mk [1, 7] [(1, 10)] [(7, 0)]
          [(1, [7, 9])] : World Nat Nat).alive →
        (lookupC (World.mk [1, 7] [(1, 10)] [(7, 0)] [(1, [7, 9])]).observers o).isSome →
        Delivery.mk o 1 (giveSelf 10) ∈ (runPass giveSelf receiveSelf
          (World.mk [1, 7] [(1, 10)] [(7, 0)] [(1, [7, 9])]) [1]).2)) :=
  ⟨⟨by decide, by decide, by decide, by decide⟩,
    C4_dispatch_pruning giveSelf receiveSelf
      (World.mk [1, 7] [(1, 10)] [(7, 0)] [(1, [7, 9])]) [1] 1 10 [7, 9]
      (by decide) (by decide) (by decide) (by decide)⟩

/-- C8: if a registered observer entity no longer exists, the next pass
touching that subject's registry still completes (the pass is a total
function: the dead entity's `NoSuchEntity` is handled, lib.rs:212, never
propagated), still delivers to every remaining registered observer that is
alive with an `O` component, and afterwards the dead entity's identifier is
absent from the registry. -/
theorem C8_garbage_collection {S O T : Type} (give : S → T)
    (receive : O → T → Entity → O) (w : World S O) (changed : List Entity)
    (s : Entity) (c : S) (r : List Entity) (dead : Entity)
    (hnd : changed.Nodup) (hs : s ∈ changed)
    (hc : lookupC w.subjects s = some c) (hr : lookupC w.lists s = some r)
    (hdead : dead ∉ w.alive) (hin : dead ∈ r) :
    (∃ r2, lookupC (runPass give receive w changed).1.lists s = some r2 ∧
      dead ∉ r2) ∧
    (∀ o, o ∈ r → o ∈ w.alive → (lookupC w.observers o).isSome →
        Delivery.mk o s (give c) ∈ (runPass give receive w changed).2) := by
  refine ⟨⟨r.filter (fun x => decide (x ∈ w.alive)),
      runPass_lists_self give receive changed w s c r hnd hs hc hr, ?_⟩,
    fun o ho ha hO =>
      runPass_delivers give receive changed w s c r o hnd hs hc hr ho ha hO⟩
  intro hmem
  exact hdead (by simpa using (List.mem_filter.mp hmem).2)

/-- C8 witness: registry `[7, 9]` on changed subject 1 where 9 was destroyed:
after the pass 9 is absent from the registry and 7 still got the delivery. -/
theorem C8_garbage_collection_witness :
    (([1] : List Entity).Nodup ∧ (1 : Entity) ∈ [1] ∧
      lookupC (World.mk [1, 7] [(1, 10)] [(7, 0)] [(1, [7, 9])]).subjects 1 = some 10 ∧
      lookupC (World.mk [1, 7] [(1, 10)] [(7, 0)] [(1, [7, 9])]).lists 1
        = some [7, 9] ∧
      (9 : Entity) ∉ (World.mk [1, 7] [(1, 10)] [(7, 0)]
        [(1, [7, 9])] : World Nat Nat).alive ∧ (9 : Entity) ∈ [7, 9]) ∧
    ((∃ r2, lookupC (runPass giveSelf receiveSelf
        (World.mk [1, 7] [(1, 10)] [(7, 0)] [(1, [7, 9])]) [1]).1.lists 1
          = some r2 ∧ (9 : Entity) ∉ r2) ∧
     (∀ o, o ∈ [7, 9] → o ∈ (World.mk [1, 7] [(1, 10)] [(7, 0)]
          [(1, [7, 9])] : World Nat Nat).alive →
        (lookupC (World.mk [1, 7] [(1, 10)] [(7, 0)] [(1, [7, 9])]).observers o).isSome →
        Delivery.mk o 1 (giveSelf 10) ∈ (runPass giveSelf receiveSelf
          (World.mk [1, 7] [(1, 10)] [(7, 0)] [(1, [7, 9])]) [1]).2)) :=
  ⟨⟨by decide, by decide, by decide, by decide, by decide, by decide⟩,
    C8_garbage_collection giveSelf receiveSelf
      (World.mk [1, 7] [(1, 10)] [(7, 0)] [(1, [7, 9])]) [1] 1 10 [7, 9] 9
      (by decide) (by decide) (by decide) (by decide) (by decide) (by decide)⟩

/-- C9: the change-propagation pass never mutates any subject's `S` component
(the pass reads subjects through a shared `&S` borrow and `give_data` takes
`&self`, lib.rs:40, 202); the whole subject storage — and the set of live
entities — is identical before and after the pass.  Only observer components
and registries are written. -/
theorem C9_subjects_unchanged {S O T : Type} (give : S → T)
    (receive : O → T → Entity → O) (w : World S O) (changed : List Entity) :
    (runPass give receive w changed).1.subjects = w.subjects ∧
    (runPass give receive w changed).1.alive = w.alive :=
  ⟨runPass_subjects give receive changed w, runPass_alive give receive changed w⟩

/-! ### Lemmas about the link-establishment command -/
theorem phase1_fields {S O : Type} (obs : Entity) (ss : List Entity) :
    ∀ (w w1 : World S O), phase1 obs ss w = some w1 →
      w1.alive = w.alive ∧ w1.subjects = w.subjects ∧ w1.observers = w.observers := by
  induction ss with
  | nil =>
    intro w w1 h
    cases h
    exact ⟨rfl, rfl, rfl⟩
  | cons s t ih =>
    intro w w1 h
    by_cases hs : s ∈ w.alive
    · simp only [phase1, hs, if_true] at h
      exact ih (addToList w s obs) w1 h
    · simp [phase1, hs] at h

theorem phase1_total {S O : Type} (obs : Entity) (ss : List Entity) :
    ∀ w : World S O, (∀ s ∈ ss, s ∈ w.alive) → (phase1 obs ss w).isSome := by
  induction ss with
  | nil => intro w _; rfl
  | cons s t ih =>
    intro w h
    have hs : s ∈ w.alive := h s (List.mem_cons_self s t)
    simp only [phase1, hs, if_true]
    exact ih (addToList w s obs) (fun x hx => h x (List.mem_cons_of_mem s hx))

theorem lookupC_addToList {S O : Type} (w : World S O) (s obs src : Entity) :
    lookupC (addToList w s obs).lists src
      = if src = s then some (insertReg obs ((lookupC w.lists s).getD []))
        else lookupC w.lists src := by
  by_cases h : src = s
  · subst h
    simp [addToList, lookupC_setComp_self]
  · simp [addToList, lookupC_setComp_ne _ _ _ _ h, h]

theorem phase1_lists {S O : Type} (obs : Entity) (ss : List Entity) :
    ∀ (w w1 : World S O), phase1 obs ss w = some w1 →
      ∀ src, lookupC w1.lists src
        = if src ∈ ss then some (insertReg obs ((lookupC w.lists src).getD []))
          else lookupC w.lists src := by
  induction ss with
  | nil =>
    intro w w1 h src
    cases h
    simp
  | cons s t ih =>
    intro w w1 h src
    by_cases hs : s ∈ w.alive
    · simp only [phase1, hs, if_true] at h
      have := ih (addToList w s obs) w1 h src
      rw [lookupC_addToList] at this
      by_cases hst : src ∈ t
      · rw [this]
        by_cases hss : src = s
        · subst hss
          simp [hst, insertReg_idem]
        · simp [hst, hss, List.mem_cons.mpr (Or.inr hst)]
      · by_cases hss : src = s
        · subst hss
          rw [this]
          simp [hst]
        · rw [this]
          simp [hst, hss, List.mem_cons]
    · simp [phase1, hs] at h

theorem phase2Loop_spec {S O T : Type} (give : S → T) (receive : O → T → Entity → O)
    (w : World S O) (obsEnt : Entity) (ss : List Entity) :
    ∀ (v : O) (log : List (Delivery T)),
      phase2Loop give receive w obsEnt ss v log
        = (receiveFold receive v (bootData give w ss),
           log ++ (bootData give w ss).map (fun p => Delivery.mk obsEnt p.1 p.2)) := by
  induction ss with
  | nil => intro v log; simp [phase2Loop, bootData, receiveFold]
  | cons s t ih =>
    intro v log
    cases hq : queryS w s with
    | some c =>
        simp only [phase2Loop, hq]
        rw [ih]
        simp [bootData, List.filterMap_cons, hq, receiveFold]
    | none =>
        simp only [phase2Loop, hq]
        rw [ih]
        simp [bootData, List.filterMap_cons, hq]

theorem phase2_fields {S O T : Type} (give : S → T) (receive : O → T → Entity → O)
    (w : World S O) (cmd : BuildCmd) :
    (phase2 give receive w cmd).1.alive = w.alive ∧
    (phase2 give receive w cmd).1.subjects = w.subjects ∧
    (phase2 give receive w cmd).1.lists = w.lists := by
  unfold phase2
  cases queryO w cmd.observer <;> simp

theorem phase2_keys {S O T : Type} (give : S → T) (receive : O → T → Entity → O)
    (w : World S O) (cmd : BuildCmd) (e : Entity) :
    (lookupC (phase2 give receive w cmd).1.observers e).isSome
      = (lookupC w.observers e).isSome := by
  unfold phase2
  cases hq : queryO w cmd.observer with
  | none => simp
  | some v =>
      simp only []
      refine lookupC_setComp_isSome w.observers cmd.observer e _ ?_
      unfold queryO at hq
      by_cases ha : cmd.observer ∈ w.alive
      · rw [if_pos ha] at hq
        simp [hq]
      · rw [if_neg ha] at hq
        cases hq

theorem phase2_obs {S O T : Type} (give : S → T) (receive : O → T → Entity → O)
    (w : World S O) (cmd : BuildCmd) (v : O)
    (hv : queryO w cmd.observer = some v) :
    lookupC (phase2 give receive w cmd).1.observers cmd.observer
        = some (receiveFold receive v (bootData give w cmd.subjects)) ∧
    (phase2 give receive w cmd).2
        = (bootData give w cmd.subjects).map (fun p => Delivery.mk cmd.observer p.1 p.2) := by
  unfold phase2
  rw [hv]
  simp only [phase2Loop_spec]
  exact ⟨lookupC_setComp_self _ _ _, by simp⟩

theorem write_spec {S O T : Type} (give : S → T) (receive : O → T → Entity → O)
    (w w2 : World S O) (cmd : BuildCmd) (log : List (Delivery T))
    (h : write give receive w cmd = some (w2, log)) :
    ∃ w1, phase1 cmd.observer cmd.subjects w = some w1 ∧
      w2 = (phase2 give receive w1 cmd).1 ∧ log = (phase2 give receive w1 cmd).2 := by
  unfold write at h
  cases hp : phase1 cmd.observer cmd.subjects w with
  | none => rw [hp] at h; cases h
  | some w1 =>
      rw [hp] at h
      simp only [Option.map_some'] at h
      have h2 := Option.some_inj.mp h
      exact ⟨w1, rfl, congrArg Prod.fst h2.symm, congrArg Prod.snd h2.symm⟩

theorem queryS_congr {S O : Type} (w w1 : World S O)
    (ha : w1.alive = w.alive) (hs : w1.subjects = w.subjects) (e : Entity) :
    queryS w1 e = queryS w e := by
  unfold queryS
  rw [ha, hs]

theorem bootData_congr {S O T : Type} (give : S → T) (w w1 : World S O)
    (ha : w1.alive = w.alive) (hs : w1.subjects = w.subjects) (ss : List Entity) :
    bootData give w1 ss = bootData give w ss := by
  unfold bootData
  refine List.filterMap_congr ?_
  intro s _
  rw [queryS_congr w w1 ha hs]

theorem receiveFold_append_single {O T : Type} (receive : O → T → Entity → O)
    (v : O) (pre : List (Entity × T)) (s : Entity) (d : T) :
    receiveFold receive v (pre ++ [(s, d)]) = receive (receiveFold receive v pre) d s := by
  unfold receiveFold
  rw [List.foldl_append]
  rfl

/-- C2 counterexample: one build command links observer 3 (alive, with `O`) to
two subjects 1 and 2 (alive, with `S`, values 10 and 20).  All premises of the
claim hold, yet immediately after the command the observer's absorbed state
equals subject 2's value, not subject 1's `give_data()` value — the push loop
(lib.rs:139-144) applies the requested subjects in order and the last delivery
wins.  So "for every requested subject ... the observer's absorbed value
equals that subject's give_data() value" is false as stated. -/
theorem C2_counterexample :
    (((1 : Entity) ∈ [1, 2] ∧
      queryS (World.mk [1, 2, 3] [(1, 10), (2, 20)] [(3, 0)] []) 1 = some 10 ∧
      (3 : Entity) ∈ (World.mk [1, 2, 3] [(1, 10), (2, 20)] [(3, 0)]
        [] : World Nat Nat).alive ∧
      lookupC (World.mk [1, 2, 3] [(1, 10), (2, 20)] [(3, 0)] []).observers 3
        = some 0) ∧
    (write giveSelf receiveSelf (World.mk [1, 2, 3] [(1, 10), (2, 20)] [(3, 0)] [])
        (BuildCmd.mk 3 [1, 2])).map (fun p => lookupC p.1.observers 3)
      = some (some 20)) ∧
    ¬ (write giveSelf receiveSelf (World.mk [1, 2, 3] [(1, 10), (2, 20)] [(3, 0)] [])
        (BuildCmd.mk 3 [1, 2])).map (fun p => lookupC p.1.observers 3)
      = some (some (giveSelf 10)) := by
  decide

/-- C2 (amended): immediately after `ObserverBuildCommand::write` completes,
if the observer entity has a live `O` component then every requested subject
entity with a live `S` component had its `give_data()` value delivered to the
observer (in request order) without waiting for any change-propagation tick,
and the observer's absorbed state is `receive_data` folded over exactly those
values — in particular it equals the last such subject's value as last
applied.  Pairings where the observer lacks `O` or a subject lacks `S` are
silently skipped: the command still completes whenever the requested subject
entities exist. -/
theorem C2_bootstrap {S O T : Type} (give : S → T) (receive : O → T → Entity → O)
    (w w2 : World S O) (cmd : BuildCmd) (log : List (Delivery T)) (v : O)
    (hw : write give receive w cmd = some (w2, log))
    (hv : queryO w cmd.observer = some v) :
    (∀ src c, src ∈ cmd.subjects → queryS w src = some c →
        Delivery.mk cmd.observer src (give c) ∈ log) ∧
    lookupC w2.observers cmd.observer
        = some (receiveFold receive v (bootData give w cmd.subjects)) ∧
    (∀ pre s d, bootData give w cmd.subjects = pre ++ [(s, d)] →
        lookupC w2.observers cmd.observer
          = some (receive (receiveFold receive v pre) d s)) ∧
    (∀ (w3 : World S O) (cmd3 : BuildCmd), (∀ s2 ∈ cmd3.subjects, s2 ∈ w3.alive) →
        (write give receive w3 cmd3).isSome = true) := by
  obtain ⟨w1, hp1, hw2, hlog⟩ := write_spec give receive w w2 cmd log hw
  obtain ⟨ha1, hs1, ho1⟩ := phase1_fields cmd.observer cmd.subjects w w1 hp1
  have hqO : queryO w1 cmd.observer = some v := by
    unfold queryO at hv ⊢
    rw [ha1, ho1]
    exact hv
  have hbd : bootData give w1 cmd.subjects = bootData give w cmd.subjects :=
    bootData_congr give w w1 ha1 hs1 cmd.subjects
  obtain ⟨hobs, hlog2⟩ := phase2_obs give receive w1 cmd v hqO
  rw [hbd] at hobs hlog2
  refine ⟨?_, ?_, ?_, ?_⟩
  · intro src c hsrc hq
    rw [hlog, hlog2]
    refine List.mem_map.mpr ⟨(src, give c), ?_, rfl⟩
    exact List.mem_filterMap.mpr ⟨src, hsrc, by rw [hq]; rfl⟩
  · rw [hw2]
    exact hobs
  · intro pre s d hsplit
    rw [hw2, hobs, hsplit, receiveFold_append_single]
  · intro w3 cmd3 h3
    unfold write
    have := phase1_total cmd3.observer cmd3.subjects w3 h3
    cases hp : phase1 cmd3.observer cmd3.subjects w3 with
    | none => rw [hp] at this; cases this
    | some w4 => simp

/-- C2 witness: one subject (entity 1, value 10) and observer 3: after the
command the delivery is logged and observer 3's state is exactly
`receive 0 (give 10) 1 = 10`, with no pass having run. -/
theorem C2_bootstrap_witness :
    (write giveSelf receiveSelf (World.mk [1, 3] [(1, 10)] [(3, 0)] [])
        (BuildCmd.mk 3 [1])
      = some (World.mk [1, 3] [(1, 10)] [(3, 10)] [(1, [3])],
          [Delivery.mk 3 1 10]) ∧
      queryO (World.mk [1, 3] [(1, 10)] [(3, 0)] []) 3 = some 0) ∧
    ((∀ src c, src ∈ (BuildCmd.mk 3 [1]).subjects →
        queryS (World.mk [1, 3] [(1, 10)] [(3, 0)] []) src = some c →
        Delivery.mk 3 src (giveSelf c) ∈ [Delivery.mk 3 1 10]) ∧
      lookupC (World.mk [1, 3] [(1, 10)] [(3, 10)] [(1, [3])]).observers 3
        = some (receiveFold receiveSelf 0
            (bootData giveSelf (World.mk [1, 3] [(1, 10)] [(3, 0)] [])
              (BuildCmd.mk 3 [1]).subjects)) ∧
      (∀ pre s d, bootData giveSelf (World.mk [1, 3] [(1, 10)] [(3, 0)] [])
            (BuildCmd.mk 3 [1]).subjects = pre ++ [(s, d)] →
        lookupC (World.mk [1, 3] [(1, 10)] [(3, 10)] [(1, [3])]).observers 3
          = some (receiveSelf (receiveFold receiveSelf 0 pre) d s)) ∧
      (∀ (w3 : World Nat Nat) (cmd3 : BuildCmd),
        (∀ s2 ∈ cmd3.subjects, s2 ∈ w3.alive) →
        (write giveSelf receiveSelf w3 cmd3).isSome = true)) :=
  ⟨⟨by decide, by decide⟩,
    C2_bootstrap giveSelf receiveSelf (World.mk [1, 3] [(1, 10)] [(3, 0)] [])
      (World.mk [1, 3] [(1, 10)] [(3, 10)] [(1, [3])]) (BuildCmd.mk 3 [1])
      [Delivery.mk 3 1 10] 0 (by decide) (by decide)⟩

/-- C7: after `ObserverBuildCommand::write` completes, every subject entity of
the command that had no `ObserverList` now has one containing exactly the one
observer entity, and every subject that already had one now has the observer
inserted with all previously-registered observers still present. -/
theorem C7_registry_effect {S O T : Type} (give : S → T) (receive : O → T → Entity → O)
    (w w2 : World S O) (cmd : BuildCmd) (log : List (Delivery T))
    (hw : write give receive w cmd = some (w2, log)) :
    ∀ src ∈ cmd.subjects,
      (lookupC w.lists src = none → lookupC w2.lists src = some [cmd.observer]) ∧
      (∀ l0, lookupC w.lists src = some l0 →
        lookupC w2.lists src = some (insertReg cmd.observer l0) ∧
        cmd.observer ∈ insertReg cmd.observer l0 ∧
        ∀ x ∈ l0, x ∈ insertReg cmd.observer l0) := by
  obtain ⟨w1, hp1, hw2, _⟩ := write_spec give receive w w2 cmd log hw
  have hlists2 : w2.lists = w1.lists := by
    rw [hw2]
    exact (phase2_fields give receive w1 cmd).2.2
  have h1 := phase1_lists cmd.observer cmd.subjects w w1 hp1
  intro src hsrc
  constructor
  · intro hnone
    rw [hlists2, h1 src, if_pos hsrc, hnone]
    simp [insertReg]
  · intro l0 hsome
    rw [hlists2, h1 src, if_pos hsrc, hsome]
    exact ⟨rfl, self_mem_insertReg cmd.observer l0,
      fun x hx => mem_insertReg.mpr (Or.inr hx)⟩

/-- C7 witness: a command over subjects 1 (no prior registry) and 2 (prior
registry `[4]`): afterwards 1's registry is exactly `[3]` and 2's registry is
`insertReg 3 [4] = [4, 3]`, with 4 still present. -/
theorem C7_registry_effect_witness :
    (write giveSelf receiveSelf (World.mk [1, 2, 3, 4] [(1, 10), (2, 20)]
        [(3, 0)] [(2, [4])]) (BuildCmd.mk 3 [1, 2])
      = some (World.mk [1, 2, 3, 4] [(1, 10), (2, 20)] [(3, 20)]
          [(2, [4, 3]), (1, [3])],
          [Delivery.mk 3 1 10, Delivery.mk 3 2 20])) ∧
    (∀ src ∈ (BuildCmd.mk 3 [1, 2]).subjects,
      (lookupC (World.mk [1, 2, 3, 4] [(1, 10), (2, 20)] [(3, 0)]
          [(2, [4])]).lists src = none →
        lookupC (World.mk [1, 2, 3, 4] [(1, 10), (2, 20)] [(3, 20)]
          [(2, [4, 3]), (1, [3])]).lists src = some [3]) ∧
      (∀ l0, lookupC (World.mk [1, 2, 3, 4] [(1, 10), (2, 20)] [(3, 0)]
          [(2, [4])]).lists src = some l0 →
        lookupC (World.mk [1, 2, 3, 4] [(1, 10), (2, 20)] [(3, 20)]
          [(2, [4, 3]), (1, [3])]).lists src = some (insertReg 3 l0) ∧
        (3 : Entity) ∈ insertReg 3 l0 ∧ ∀ x ∈ l0, x ∈ insertReg 3 l0)) :=
  ⟨by decide,
    C7_registry_effect giveSelf receiveSelf
      (World.mk [1, 2, 3, 4] [(1, 10), (2, 20)] [(3, 0)] [(2, [4])])
      (World.mk [1, 2, 3, 4] [(1, 10), (2, 20)] [(3, 20)] [(2, [4, 3]), (1, [3])])
      (BuildCmd.mk 3 [1, 2]) [Delivery.mk 3 1 10, Delivery.mk 3 2 20] (by decide)⟩

theorem write_fields {S O T : Type} (give : S → T) (receive : O → T → Entity → O)
    (w w2 : World S O) (cmd : BuildCmd) (log : List (Delivery T))
    (h : write give receive w cmd = some (w2, log)) :
    w2.alive = w.alive ∧ w2.subjects = w.subjects ∧
    (∀ e, (lookupC w2.observers e).isSome = (lookupC w.observers e).isSome) := by
  obtain ⟨w1, hp1, hw2, _⟩ := write_spec give receive w w2 cmd log h
  obtain ⟨ha1, hs1, ho1⟩ := phase1_fields cmd.observer cmd.subjects w w1 hp1
  obtain ⟨ha2, hs2, _⟩ := phase2_fields give receive w1 cmd
  refine ⟨by rw [hw2, ha2, ha1], by rw [hw2, hs2, hs1], fun e => ?_⟩
  rw [hw2, phase2_keys, ho1]

theorem write_lists {S O T : Type} (give : S → T) (receive : O → T → Entity → O)
    (w w2 : World S O) (cmd : BuildCmd) (log : List (Delivery T))
    (h : write give receive w cmd = some (w2, log)) :
    ∀ src, lookupC w2.lists src
      = if src ∈ cmd.subjects
        then some (insertReg cmd.observer ((lookupC w.lists src).getD []))
        else lookupC w.lists src := by
  obtain ⟨w1, hp1, hw2, _⟩ := write_spec give receive w w2 cmd log h
  intro src
  rw [hw2, (phase2_fields give receive w1 cmd).2.2]
  exact phase1_lists cmd.observer cmd.subjects w w1 hp1 src

/-- C6: inserting the same observer twice into a duplicate-free registry
leaves exactly one occurrence, and after two identical link-establishment
commands for the same observer and subject the subject's registry holds that
observer exactly once; consequently in a single dispatch of that one changed
subject, every registered observer that is alive with an `O` component gets
exactly one `receive_data` call. -/
theorem C6_idempotent_registration {S O T : Type} (give : S → T)
    (receive : O → T → Entity → O) (w w1 w2 : World S O)
    (log1 log2 : List (Delivery T)) (obs s : Entity) (c : S)
    (hln : ∀ l0, lookupC w.lists s = some l0 → l0.Nodup)
    (h1 : write give receive w (BuildCmd.mk obs [s]) = some (w1, log1))
    (h2 : write give receive w1 (BuildCmd.mk obs [s]) = some (w2, log2))
    (hc : lookupC w.subjects s = some c) :
    (∀ (l : List Entity) (obs2 : Entity), l.Nodup →
        (insertReg obs2 (insertReg obs2 l)).count obs2 = 1) ∧
    ∃ L, lookupC w2.lists s = some L ∧ L.count obs = 1 ∧ L.Nodup ∧
      (∀ o v2, o ∈ L → o ∈ w2.alive → lookupC w2.observers o = some v2 →
        ((runPass give receive w2 [s]).2.filter
          (fun d => decide (d.observer = o))).length = 1) := by
  have hl0nd : ((lookupC w.lists s).getD []).Nodup := by
    cases hll : lookupC w.lists s with
    | none => simp
    | some l0 => simpa using hln l0 hll
  have hw1l := write_lists give receive w w1 (BuildCmd.mk obs [s]) log1 h1 s
  have hw2l := write_lists give receive w1 w2 (BuildCmd.mk obs [s]) log2 h2 s
  simp only [List.mem_singleton, if_pos rfl, if_true] at hw1l hw2l
  rw [hw1l] at hw2l
  simp only [Option.getD_some] at hw2l
  rw [insertReg_idem] at hw2l
  have hLnd : (insertReg obs ((lookupC w.lists s).getD [])).Nodup :=
    nodup_insertReg obs hl0nd
  obtain ⟨ha1, hs1, _⟩ := write_fields give receive w w1 (BuildCmd.mk obs [s]) log1 h1
  obtain ⟨ha2, hs2, _⟩ := write_fields give receive w1 w2 (BuildCmd.mk obs [s]) log2 h2
  have hc2 : lookupC w2.subjects s = some c := by rw [hs2, hs1]; exact hc
  refine ⟨fun l obs2 hnd => by rw [insertReg_idem]; exact count_insertReg_self obs2 hnd,
    insertReg obs ((lookupC w.lists s).getD []), hw2l,
    count_insertReg_self obs hl0nd, hLnd, ?_⟩
  intro o v2 ho ha hv
  have hpass : (runPass give receive w2 [s]).2 = (dispatchOne give receive w2 s).2 := by
    simp [runPass]
  rw [hpass]
  exact dispatchOne_count give receive w2 s c _ o hc2 hw2l hLnd ho ha (by simp [hv])

/-- C6 witness: a fresh world where observer 2 is linked twice to subject 1:
the registry ends as `[2]` with one occurrence, and the single dispatch of
subject 1 logs exactly one delivery to observer 2. -/
theorem C6_idempotent_registration_witness :
    (write giveSelf receiveSelf (World.mk [1, 2] [(1, 5)] [(2, 0)] [])
        (BuildCmd.mk 2 [1])
      = some (World.mk [1, 2] [(1, 5)] [(2, 5)] [(1, [2])], [Delivery.mk 2 1 5]) ∧
     write giveSelf receiveSelf (World.mk [1, 2] [(1, 5)] [(2, 5)] [(1, [2])])
        (BuildCmd.mk 2 [1])
      = some (World.mk [1, 2] [(1, 5)] [(2, 5)] [(1, [2])], [Delivery.mk 2 1 5]) ∧
     lookupC (World.mk [1, 2] [(1, 5)] [(2, 0)] []).subjects 1 = some 5) ∧
    ((∀ (l : List Entity) (obs2 : Entity), l.Nodup →
        (insertReg obs2 (insertReg obs2 l)).count obs2 = 1) ∧
     ∃ L, lookupC (World.mk [1, 2] [(1, 5)] [(2, 5)] [(1, [2])]).lists 1 = some L ∧
        L.count 2 = 1 ∧ L.Nodup ∧
        (∀ o v2, o ∈ L → o ∈ (World.mk [1, 2] [(1, 5)] [(2, 5)]
            [(1, [2])] : World Nat Nat).alive →
          lookupC (World.mk [1, 2] [(1, 5)] [(2, 5)] [(1, [2])]).observers o
            = some v2 →
          ((runPass giveSelf receiveSelf
              (World.mk [1, 2] [(1, 5)] [(2, 5)] [(1, [2])]) [1]).2.filter
            (fun d => decide (d.observer = o))).length = 1)) :=
  ⟨⟨by decide, by decide, by decide⟩,
    C6_idempotent_registration giveSelf receiveSelf
      (World.mk [1, 2] [(1, 5)] [(2, 0)] [])
      (World.mk [1, 2] [(1, 5)] [(2, 5)] [(1, [2])])
      (World.mk [1, 2] [(1, 5)] [(2, 5)] [(1, [2])])
      [Delivery.mk 2 1 5] [Delivery.mk 2 1 5] 2 1 5
      (fun l0 h => nomatch h) (by decide) (by decide) (by decide)⟩

/-- C10: after `ReceiveData<String>::receive_data` on a `Text`, the sections
list is non-empty, section 0's value is the delivered string, the sections
beyond index 0 are unchanged, and when the sections list was empty a default
section was first appended (so the result is exactly one default-styled
section carrying the delivered string). -/
theorem C10_text_receive {Style Align : Type} (defStyle : Style)
    (t : Text Style Align) (d : String) :
    (textReceiveData defStyle t d).sections ≠ [] ∧
    ((textReceiveData defStyle t d).sections.head?).map TextSection.value = some d ∧
    (textReceiveData defStyle t d).sections.tail = t.sections.tail ∧
    (t.sections = [] → (textReceiveData defStyle t d).sections
        = [TextSection.mk d defStyle]) := by
  cases hs : t.sections with
  | nil => simp [textReceiveData, hs, textSectionDefault]
  | cons s0 rest => simp [textReceiveData, hs]

/-- C10 witness: delivering to an empty `Text` yields exactly one section
whose value is the delivered string. -/
theorem C10_text_receive_witness :
    (textReceiveData () (Text.mk ([] : List (TextSection Unit)) ()) "hi").sections
        ≠ [] ∧
    ((textReceiveData () (Text.mk ([] : List (TextSection Unit)) ())
        "hi").sections.head?).map TextSection.value = some "hi" ∧
    (textReceiveData () (Text.mk ([] : List (TextSection Unit)) ())
        "hi").sections.tail
      = (Text.mk ([] : List (TextSection Unit)) ()).sections.tail ∧
    ((Text.mk ([] : List (TextSection Unit)) ()).sections = [] →
      (textReceiveData () (Text.mk ([] : List (TextSection Unit)) ()) "hi").sections
        = [TextSection.mk "hi" ()]) :=
  C10_text_receive () (Text.mk ([] : List (TextSection Unit)) ()) "hi"

end BevyObs
